import Mathlib

/-
Verification of the propspacex media service core: the media pipeline
(`MediaService` in src/v1/feat/media/media.service.ts), its mongoose model
hooks (media.model.ts), the file utilities (file.utils.ts), the image
utilities (image.utils.ts) and the local storage provider
(local.provider.ts), shallowly embedded as pure Lean functions.

Buffers are modelled as lists of bytes (`List Nat`); the metadata store is a
list of media records; the storage backend is an association list from keys
to buffers (the local provider's file tree).  External collaborators (the
`sharp` image library, uuid/timestamp generation, and I/O failure of a
backend write) are supplied through an explicit environment record, so every
operation is a total computable function of its inputs.
-/

namespace MediaSvc

/-! ## Strings and buffers -/

abbrev Buffer := List Nat

/-- `getFileExtension` (file.utils.ts): index of the last `.`; if present the
slice from that dot (inclusive) lower-cased, else `""`.
Implemented on the reversed character list: the characters strictly after the
last dot are exactly the longest dot-free suffix. -/
def getFileExtension (name : String) : String :=
  let rev := name.data.reverse
  let tail := rev.takeWhile (fun c => c ≠ '.')
  if tail.length = rev.length then ""   -- no dot at all
  else String.mk ('.' :: (tail.reverse.map Char.toLower))

/-- The regex rewrite `storagePath.replace(/(\.[^.]+)$/, "-thumb.webp")`
(media.service.ts lines 93 and 259).  The regex matches iff the string has a
dot with at least one (necessarily dot-free) character after it, i.e. iff its
longest dot-free suffix is proper and nonempty; the match starts at the last
dot and runs to the end, and is replaced by `-thumb.webp`. -/
def thumbRewrite (s : String) : String :=
  let rev := s.data.reverse
  let tail := rev.takeWhile (fun c => c ≠ '.')
  if tail.length = rev.length then s        -- no dot: no match
  else if tail.length = 0 then s            -- ends in '.': `[^.]+` cannot match
  else String.mk ((rev.drop (tail.length + 1)).reverse ++ "-thumb.webp".data)

/-- Character-list worker for `replaceFirstDot`. -/
def replaceFirstDotGo : List Char → List Char
  | [] => []
  | c :: t => if c = '.' then t else c :: replaceFirstDotGo t

/-- `ext.replace(".", "")` as used for `metadata.format`
(media.service.ts line 124): remove the first occurrence of `"."`. -/
def replaceFirstDot (s : String) : String :=
  String.mk (replaceFirstDotGo s.data)

/-! ## Configuration defaults (dotenv.config.ts) -/

def allowedImageTypes : List String :=
  ["image/jpeg", "image/png", "image/webp", "image/gif"]

def allowedVideoTypes : List String :=
  ["video/mp4", "video/webm", "video/quicktime"]

def allowedDocumentTypes : List String :=
  ["application/pdf"]

def maxFileSize : Nat := 52428800

/-! ## file.utils.ts -/

inductive MediaType where
  | image | video | document
  deriving DecidableEq, Repr

/-- `mimeType.startsWith(p)`, on the character lists. -/
def strStartsWith (p s : String) : Bool :=
  p.data.isPrefixOf s.data

/-- `getMediaTypeFromMime`: prefix dispatch on the MIME string; an
unrecognised prefix throws (`none`). -/
def getMediaTypeFromMime (mimeType : String) : Option MediaType :=
  if strStartsWith "image/" mimeType then some .image
  else if strStartsWith "video/" mimeType then some .video
  else if strStartsWith "application/" mimeType then some .document
  else none

def isAllowedMimeType (mimeType : String) : Bool :=
  mimeType ∈ allowedImageTypes ++ allowedVideoTypes ++ allowedDocumentTypes

def isAllowedFileSize (size : Nat) : Bool :=
  size ≤ maxFileSize

/-- The uploaded file as seen by the service (`Express.Multer.File`). -/
structure UploadFile where
  originalname : String
  mimetype : String
  size : Nat
  buffer : Buffer
  deriving DecidableEq, Repr

/-- `validateFile`: `none` means valid, `some reason` the rejection. -/
inductive ValidationFailure where
  | unsupportedType | tooLarge
  deriving DecidableEq, Repr

def validateFile (f : UploadFile) : Option ValidationFailure :=
  if ¬ isAllowedMimeType f.mimetype then some .unsupportedType
  else if ¬ isAllowedFileSize f.size then some .tooLarge
  else none

/-! ## The local storage provider (local.provider.ts) -/

/-- `http://localhost:${config.port}/uploads` with the default port 3003. -/
def localBaseUrl : String := "http://localhost:3003/uploads"

def localUrl (key : String) : String := localBaseUrl ++ "/" ++ key

/-- The provider's file tree: keys to file contents. -/
abbrev Backend := List (String × Buffer)

def bkGet (bk : Backend) (key : String) : Option Buffer :=
  (bk.find? (fun p => p.1 = key)).map (fun p => p.2)

/-- `fs.writeFile`: overwrite semantics. -/
def bkSet (bk : Backend) (key : String) (val : Buffer) : Backend :=
  bk.filter (fun p => p.1 ≠ key) ++ [(key, val)]

/-- `LocalProvider.delete`: `fs.unlink`, ignoring a missing file. -/
def bkDel (bk : Backend) (key : String) : Backend :=
  bk.filter (fun p => p.1 ≠ key)

/-- `LocalProvider.deleteMany`: delete every key of the batch (the per-key
deletes are independent, so the result is a single filter). -/
def bkDelMany (bk : Backend) (keys : List String) : Backend :=
  bk.filter (fun p => ¬ p.1 ∈ keys)

/-- `LocalProvider.getSignedUrl(key, _expiresIn)`: the expiry parameter is
ignored and the stable direct URL is returned. -/
def localGetSignedUrl (key : String) (_expiresIn : Nat) : String :=
  localUrl key

/-! ## The media record and the metadata store (media.model.ts, media.type.ts) -/

structure MediaThumbnail where
  url : String
  width : Nat
  height : Nat
  deriving DecidableEq, Repr

structure MediaDimensions where
  width : Nat
  height : Nat
  deriving DecidableEq, Repr

structure MediaMetadata where
  originalName : String
  mimeType : String
  size : Nat
  dimensions : Option MediaDimensions
  format : String
  deriving DecidableEq, Repr

structure MediaRecord where
  id : String
  fileName : String
  url : String
  thumbnail : MediaThumbnail
  type : MediaType
  metadata : MediaMetadata
  entityType : String
  entityId : String
  fieldName : String
  uploadedBy : String
  storageProvider : String
  storagePath : String
  isProcessed : Bool
  isActive : Bool
  deriving DecidableEq, Repr

/-- The `Media` collection, in `createdAt`-descending order (the order the
`sort({createdAt: -1})` queries return; record membership is what the claims
are about). -/
abbrev Store := List MediaRecord

/-- `Media.findById(id)`.  The schema registers a `pre("findOne")` hook that
unconditionally merges `{isActive: true}` into the query conditions
(media.model.ts lines 131-133), so a document is only returned when it is
active.  `setOptions({strictQuery: false})` does not disable the hook:
`strictQuery` only controls the stripping of filter paths absent from the
schema, and `isActive` is a schema path. -/
def findByIdHooked (store : Store) (id : String) : Option MediaRecord :=
  store.find? (fun r => r.id = id ∧ r.isActive)

/-- `Media.find({_id: {$in: ids}})` under the same `pre("find")` hook:
only active documents with a matching id are returned. -/
def findInHooked (store : Store) (ids : List String) : List MediaRecord :=
  store.filter (fun r => r.id ∈ ids ∧ r.isActive)

/-- `Media.findByIdAndUpdate(id, {isActive: false})` — no `findOneAndUpdate`
hook is registered, so the update reaches the document regardless of its
`isActive` value. -/
def setInactiveById (store : Store) (id : String) : Store :=
  store.map (fun r => if r.id = id then { r with isActive := false } else r)

/-- `Media.updateMany({_id: {$in: ids}}, {isActive: false})` — no hook. -/
def setInactiveByIds (store : Store) (ids : List String) : Store :=
  store.map (fun r => if r.id ∈ ids then { r with isActive := false } else r)

/-- `Media.findByIdAndDelete(id)` / `Media.deleteMany({_id: {$in: ids}})`
— no hook on either. -/
def removeById (store : Store) (id : String) : Store :=
  store.filter (fun r => r.id ≠ id)

def removeByIds (store : Store) (ids : List String) : Store :=
  store.filter (fun r => ¬ r.id ∈ ids)

/-! ## Service queries (media.service.ts) -/

inductive SvcError where
  | notFound
  | badRequest (reason : ValidationFailure)
  | unsupportedMime     -- getMediaTypeFromMime threw
  | decodeFailed        -- sharp rejected the bytes
  | storageFailed       -- a backend upload raised
  deriving DecidableEq, Repr

/-- `MediaService.getMediaById`. -/
def getMediaById (store : Store) (id : String) : Except SvcError MediaRecord :=
  match findByIdHooked store id with
  | none => .error .notFound
  | some m => .ok m

structure MediaQueryOptions where
  entityType : Option String := none
  entityId : Option String := none
  fieldName : Option String := none
  uploadedBy : Option String := none
  type : Option MediaType := none
  isActive : Option Bool := none
  page : Option Nat := none
  limit : Option Nat := none

/-- The filter object `getMedia` builds: `{isActive}` (defaulted to `true`)
plus each optional field that was supplied. -/
def queryFilter (q : MediaQueryOptions) (r : MediaRecord) : Prop :=
  r.isActive = q.isActive.getD true
  ∧ (∀ et, q.entityType = some et → r.entityType = et)
  ∧ (∀ ei, q.entityId = some ei → r.entityId = ei)
  ∧ (∀ fn, q.fieldName = some fn → r.fieldName = fn)
  ∧ (∀ ub, q.uploadedBy = some ub → r.uploadedBy = ub)
  ∧ (∀ ty, q.type = some ty → r.type = ty)

instance (q : MediaQueryOptions) (r : MediaRecord) : Decidable (queryFilter q r) := by
  unfold queryFilter
  exact inferInstance

structure PagedResult where
  data : List MediaRecord
  total : Nat
  page : Nat
  limit : Nat
  totalPages : Nat

/-- `MediaService.getMedia`.  `Media.find(filter)` additionally passes
through the `pre("find")` hook, which merges `{isActive: true}` into the
conditions, so a returned document satisfies the built filter and is active.
`countDocuments(filter)` has no such hook and counts the bare filter. -/
def getMedia (store : Store) (q : MediaQueryOptions) : PagedResult :=
  let page := q.page.getD 1
  let limit := q.limit.getD 20
  let skip := (page - 1) * limit
  let found := store.filter (fun r => queryFilter q r ∧ r.isActive)
  let total := (store.filter (fun r => queryFilter q r)).length
  { data := (found.drop skip).take limit
    total := total
    page := page
    limit := limit
    totalPages := (total + limit - 1) / limit }

/-! ## Deletion operations (media.service.ts) -/

/-- `MediaService.deleteMedia`: hook-filtered lookup, then soft delete. -/
def deleteMedia (store : Store) (id : String) : Except SvcError Store :=
  match findByIdHooked store id with
  | none => .error .notFound
  | some _ => .ok (setInactiveById store id)

/-- `MediaService.deleteMediaPermanently`: hook-filtered lookup (the
`strictQuery: false` option does not bypass the `pre("findOne")` hook, see
`findByIdHooked`); then `storageProvider.delete(storagePath)`, then — when the
record has a thumbnail URL — delete of the rewritten thumbnail key, then hard
removal of the document.  Also returns the list of backend keys deleted, in
call order. -/
def deleteMediaPermanently (store : Store) (bk : Backend) (id : String) :
    Except SvcError (Store × Backend × List String) :=
  match findByIdHooked store id with
  | none => .error .notFound
  | some m =>
    let bk₁ := bkDel bk m.storagePath
    let keys₁ := [m.storagePath]
    if m.thumbnail.url ≠ "" then
      let thumbPath := thumbRewrite m.storagePath
      .ok (removeById store id, bkDel bk₁ thumbPath, keys₁ ++ [thumbPath])
    else
      .ok (removeById store id, bk₁, keys₁)

structure BulkResult where
  deleted : Nat
  failed : List String
  deriving DecidableEq, Repr

/-- `MediaService.bulkDelete` (bulk soft delete): hook-filtered `$in` lookup,
`failed` = input ids with no (active) match, soft delete of the found ids. -/
def bulkDelete (store : Store) (ids : List String) : Store × BulkResult :=
  let media := findInHooked store ids
  let foundIds := media.map (fun m => m.id)
  let failedIds := ids.filter (fun id => ¬ id ∈ foundIds)
  let store' := if foundIds.length > 0 then setInactiveByIds store foundIds else store
  (store', { deleted := foundIds.length, failed := failedIds })

/-- `MediaService.bulkDeletePermanently`: hook-filtered `$in` lookup; the
batch backend delete receives exactly the found records' `storagePath`s
(no thumbnail key is derived); then the found documents are removed.  The
last component is the key list passed to `storageProvider.deleteMany`. -/
def bulkDeletePermanently (store : Store) (bk : Backend) (ids : List String) :
    Store × Backend × BulkResult × List String :=
  let media := findInHooked store ids
  let paths := media.map (fun m => m.storagePath)
  let foundIds := media.map (fun m => m.id)
  let failedIds := ids.filter (fun id => ¬ id ∈ foundIds)
  if paths.length > 0 then
    (removeByIds store foundIds, bkDelMany bk paths,
      { deleted := foundIds.length, failed := failedIds }, paths)
  else
    (store, bk, { deleted := foundIds.length, failed := failedIds }, [])

/-! ## The upload pipeline (media.service.ts uploadMedia) -/

/-- Name generation (`MediaService.generateFileName`): `Date.now()` and
`uuidv4()` are runtime inputs, passed explicitly. -/
def generateFileName (timestamp uniqueId : String) (originalName : String) : String :=
  timestamp ++ "-" ++ uniqueId ++ getFileExtension originalName

/-- `MediaService.generateStoragePath`. -/
def generateStoragePath (entityType entityId fieldName fileName : String) : String :=
  entityType ++ "/" ++ entityId ++ "/" ++ fieldName ++ "/" ++ fileName

/-- Runtime environment of one `uploadMedia` call: generated identifiers, the
`sharp` image library (an external collaborator — `processImage`,
`createThumbnail` return `none` on a decode error; `probe` is
`sharp(buffer).metadata()`, whose width/height may be undefined), and I/O
success of each backend write. -/
structure UploadEnv where
  timestamp : String
  uuid : String
  freshId : String
  processImage : Buffer → Option Buffer
  probe : Buffer → Option Nat × Option Nat
  createThumbnail : Buffer → Option Buffer
  uploadOk : String → Bool

/-- `getImageMetadata` (image.utils.ts lines 103-116):
`metadata.width || 0`, `metadata.height || 0`. -/
def getImageMetadata (env : UploadEnv) (b : Buffer) : Nat × Nat :=
  ((env.probe b).1.getD 0, (env.probe b).2.getD 0)

/-- `storageProvider.upload` against the local provider; `none` models a
raised I/O error (in which case nothing is written). -/
def providerUpload (env : UploadEnv) (bk : Backend) (buf : Buffer) (key : String) :
    Option (Backend × String) :=
  if env.uploadOk key then some (bkSet bk key buf, localUrl key) else none

structure UploadOptions where
  entityType : String
  entityId : String
  fieldName : String
  uploadedBy : String
  deriving DecidableEq, Repr

/-- Observable side effects of one upload call, in order. -/
inductive Ev where
  | upload (key : String)
  | created (id : String)
  deriving DecidableEq, Repr

structure UploadOutcome where
  result : Except SvcError MediaRecord
  store : Store
  backend : Backend
  trace : List Ev

/-- The tail of `uploadMedia` shared by the image and non-image branches:
upload the main file, build the metadata (`dimensions` present only when both
the width and height variables are set and truthy, i.e. nonzero;
`format` is the extension with its dot removed), create the record. -/
def uploadTail (env : UploadEnv) (store : Store) (file : UploadFile)
    (opts : UploadOptions) (mediaType : MediaType) (fileName storagePath : String)
    (uploadBuffer : Buffer) (thumbnail : MediaThumbnail)
    (width height : Option Nat) (isProcessed : Bool)
    (bk : Backend) (tr : List Ev) : UploadOutcome :=
  match providerUpload env bk uploadBuffer storagePath with
  | none => ⟨.error .storageFailed, store, bk, tr⟩
  | some (bk', url) =>
    let dims : Option MediaDimensions :=
      match width, height with
      | some w, some h => if w ≠ 0 ∧ h ≠ 0 then some ⟨w, h⟩ else none
      | _, _ => none
    let md : MediaMetadata :=
      ⟨file.originalname, file.mimetype, uploadBuffer.length, dims,
        replaceFirstDot (getFileExtension file.originalname)⟩
    let m : MediaRecord :=
      ⟨env.freshId, fileName, url, thumbnail, mediaType, md,
        opts.entityType, opts.entityId, opts.fieldName, opts.uploadedBy,
        "local", storagePath, isProcessed, true⟩
    ⟨.ok m, store ++ [m], bk', tr ++ [.upload storagePath, .created env.freshId]⟩

/-- `MediaService.uploadMedia`: validate; derive the type from the MIME
string; generate name and path; for images normalize, probe, thumbnail
(uploaded under the regex-rewritten path, before the main upload); upload the
main file; create the record last. -/
def uploadMedia (env : UploadEnv) (store : Store) (bk : Backend)
    (file : UploadFile) (opts : UploadOptions) : UploadOutcome :=
  match validateFile file with
  | some reason => ⟨.error (.badRequest reason), store, bk, []⟩
  | none =>
  match getMediaTypeFromMime file.mimetype with
  | none => ⟨.error .unsupportedMime, store, bk, []⟩
  | some mediaType =>
    let fileName := generateFileName env.timestamp env.uuid file.originalname
    let storagePath :=
      generateStoragePath opts.entityType opts.entityId opts.fieldName fileName
    if mediaType = MediaType.image then
      match env.processImage file.buffer with
      | none => ⟨.error .decodeFailed, store, bk, []⟩
      | some processed =>
        let meta := getImageMetadata env processed
        match env.createThumbnail file.buffer with
        | none => ⟨.error .decodeFailed, store, bk, []⟩
        | some thumbBuf =>
          let thumbPath := thumbRewrite storagePath
          match providerUpload env bk thumbBuf thumbPath with
          | none => ⟨.error .storageFailed, store, bk, []⟩
          | some (bk₁, thumbUrl) =>
            let tMeta := getImageMetadata env thumbBuf
            let thumbnail : MediaThumbnail :=
              ⟨thumbUrl,
                if tMeta.1 = 0 then 200 else tMeta.1,
                if tMeta.2 = 0 then 200 else tMeta.2⟩
            uploadTail env store file opts mediaType fileName storagePath
              processed thumbnail (some meta.1) (some meta.2) true
              bk₁ [.upload thumbPath]
    else
      uploadTail env store file opts mediaType fileName storagePath
        file.buffer ⟨"", 0, 0⟩ none none false bk []

/-- `MediaService.getSignedUrl` (against the local provider). -/
def svcGetSignedUrl (store : Store) (id : String) (expiresIn : Nat) :
    Except SvcError String :=
  match findByIdHooked store id with
  | none => .error .notFound
  | some m => .ok (localGetSignedUrl m.storagePath expiresIn)

/-! ## Concrete fixtures used by witnesses and counterexamples -/

/-- An active image record with a thumbnail. -/
def recA : MediaRecord :=
  ⟨"idA", "1-u.jpg", localUrl "user/e1/photos/1-u.jpg",
    ⟨localUrl "user/e1/photos/1-u-thumb.webp", 300, 200⟩, .image,
    ⟨"orig.jpg", "image/jpeg", 3, some ⟨800, 600⟩, "jpg"⟩,
    "user", "e1", "photos", "u9", "local", "user/e1/photos/1-u.jpg", true, true⟩

/-- A soft-deleted (inactive) image record. -/
def recI : MediaRecord :=
  { recA with
      id := "idI"
      fileName := "2-v.jpg"
      url := localUrl "user/e1/photos/2-v.jpg"
      storagePath := "user/e1/photos/2-v.jpg"
      isActive := false }

/-- Backend holding the primary and thumbnail objects of both records. -/
def demoBackend : Backend :=
  [("user/e1/photos/1-u.jpg", [1, 2]), ("user/e1/photos/1-u-thumb.webp", [3]),
   ("user/e1/photos/2-v.jpg", [4]), ("user/e1/photos/2-v-thumb.webp", [5])]

/-- A benign upload environment: `sharp` accepts everything, probing always
reports 800×600, and every backend write succeeds. -/
def demoEnv : UploadEnv :=
  ⟨"100", "uid1", "newid", fun b => some b, fun _ => (some 800, some 600),
    fun _ => some [9], fun _ => true⟩

def imgFile : UploadFile := ⟨"photo.jpg", "image/jpeg", 3, [1, 2, 3]⟩

def docFile : UploadFile := ⟨"doc.pdf", "application/pdf", 3, [1, 2, 3]⟩

def badFile : UploadFile := ⟨"x.exe", "application/x-msdownload", 3, [1]⟩

/-- An image upload whose original name has no dot. -/
def noDotFile : UploadFile := ⟨"photo", "image/png", 3, [1, 2, 3]⟩

def demoOpts : UploadOptions := ⟨"user", "e1", "photos", "u9"⟩

/-- A placement whose `entityId` contains a dot. -/
def dotOpts : UploadOptions := ⟨"user", "a.b", "f", "u9"⟩

/-- The record produced by the benign image upload (fallback is irrelevant:
the upload succeeds). -/
def uploadedImgRec : MediaRecord :=
  match (uploadMedia demoEnv [] [] imgFile demoOpts).result with
  | .ok m => m
  | .error _ => recA

/-- The record produced by uploading `noDotFile` to the dot-free placement. -/
def noDotUploadedRec : MediaRecord :=
  match (uploadMedia demoEnv [] [] noDotFile demoOpts).result with
  | .ok m => m
  | .error _ => recA

/-! ## General lemmas -/

theorem str_data_append (a b : String) : (a ++ b).data = a.data ++ b.data := by
  cases a; cases b; rfl

theorem append_left_cancel_str {p a b : String} (h : p ++ a = p ++ b) : a = b := by
  have hd : (p ++ a).data = (p ++ b).data := by rw [h]
  rw [str_data_append, str_data_append] at hd
  have h2 := List.append_cancel_left hd
  cases a; cases b
  exact congrArg String.mk (by simpa using h2)

theorem localUrl_ne_empty (k : String) : localUrl k ≠ "" := by
  intro h
  have h2 : (localUrl k).data.length = 0 := by rw [h]; rfl
  have h3 : (localUrl k).data = localBaseUrl.data ++ ('/' :: k.data) := by
    show ((localBaseUrl ++ "/") ++ k).data = _
    rw [str_data_append, str_data_append]
    rfl
  rw [h3] at h2
  simp [List.length_append] at h2

theorem getFileExtension_of_no_dot (name : String)
    (h : ∀ c ∈ name.data, c ≠ '.') : getFileExtension name = "" := by
  have ht : List.takeWhile (fun c => !decide (c = '.')) name.data.reverse
      = name.data.reverse :=
    List.takeWhile_eq_self_iff.mpr
      (fun c hc => by simpa using h c (List.mem_reverse.mp hc))
  simp [getFileExtension, ht]

theorem thumbRewrite_of_no_dot (s : String)
    (h : ∀ c ∈ s.data, c ≠ '.') : thumbRewrite s = s := by
  have ht : List.takeWhile (fun c => !decide (c = '.')) s.data.reverse
      = s.data.reverse :=
    List.takeWhile_eq_self_iff.mpr
      (fun c hc => by simpa using h c (List.mem_reverse.mp hc))
  simp [thumbRewrite, ht]

theorem no_dot_append {a b : String}
    (ha : ∀ c ∈ a.data, c ≠ '.') (hb : ∀ c ∈ b.data, c ≠ '.') :
    ∀ c ∈ (a ++ b).data, c ≠ '.' := by
  intro c hc
  rw [str_data_append, List.mem_append] at hc
  rcases hc with hc | hc
  · exact ha c hc
  · exact hb c hc

theorem find?_filter_of_imp {α : Type} (l : List α) (p q : α → Bool)
    (hpq : ∀ a, p a = true → q a = true) :
    List.find? p (l.filter q) = List.find? p l := by
  induction l with
  | nil => rfl
  | cons hd tl ih =>
    by_cases hp : p hd = true
    · rw [List.filter_cons_of_pos (hpq hd hp), List.find?_cons_of_pos _ hp,
        List.find?_cons_of_pos _ hp]
    · by_cases hq : q hd = true
      · rw [List.filter_cons_of_pos hq, List.find?_cons_of_neg _ hp,
          List.find?_cons_of_neg _ hp, ih]
      · rw [List.filter_cons_of_neg (by simpa using hq), List.find?_cons_of_neg _ hp, ih]

theorem bkGet_bkSet_same (bk : Backend) (k : String) (v : Buffer) :
    bkGet (bkSet bk k v) k = some v := by
  unfold bkGet bkSet
  induction bk with
  | nil => simp
  | cons hd tl ih =>
    by_cases hk : hd.1 = k
    · simp [List.filter_cons, hk]
    · simp [List.filter_cons, hk]

theorem bkGet_delMany_of_not_mem (bk : Backend) (keys : List String) (k : String)
    (h : ¬ k ∈ keys) : bkGet (bkDelMany bk keys) k = bkGet bk k := by
  unfold bkGet bkDelMany
  rw [find?_filter_of_imp]
  intro a ha
  simp only [decide_eq_true_eq] at ha ⊢
  rw [ha]
  exact h

/-! ## Claim theorems -/

/-- C1: the claim states that `deleteMediaPermanently` on an existing but
soft-deleted record does not fail NotFound and removes the backend objects
and the record.  The code diverges: the `pre("findOne")` hook forces
`isActive: true` into the lookup and `setOptions({strictQuery: false})` does
not bypass it, so the soft-deleted record is not found and the operation
fails NotFound, touching neither the backend nor the store.  Evaluated here
at the failing input: the inactive record `recI`, whose primary and thumbnail
objects are present in `demoBackend`. -/
theorem hardDelete_soft_deleted_fails_notFound :
    recI.isActive = false
    ∧ bkGet demoBackend recI.storagePath = some [4]
    ∧ deleteMediaPermanently [recI] demoBackend recI.id = .error .notFound := by
  exact ⟨rfl, by decide, rfl⟩

/-- C2: a soft-deleted record is invisible to the read path: `getMediaById`
fails NotFound (the `pre("findOne")` hook), and `getMedia` never lists it
unless the caller explicitly passes `isActive = false` (the built filter
defaults `isActive` to `true` and the `pre("find")` hook insists on
`isActive = true`). -/
theorem soft_deleted_record_invisible (store : Store) (id : String)
    (h : ∀ r ∈ store, r.id = id → r.isActive = false) :
    getMediaById store id = .error .notFound
    ∧ ∀ (q : MediaQueryOptions) (r : MediaRecord),
        r ∈ store → r.id = id → q.isActive ≠ some false →
        r ∉ (getMedia store q).data := by
  constructor
  · have hnone : store.find? (fun r => decide (r.id = id) && r.isActive) = none := by
      apply List.find?_eq_none.mpr
      intro r hr
      simp only [Bool.and_eq_true, decide_eq_true_eq, not_and]
      intro hid ha
      exact absurd (h r hr hid) (by simp [ha])
    simp [getMediaById, findByIdHooked, hnone]
  · intro q r hr hid _ hmem
    have h1 : r ∈ (getMedia store q).data → r.isActive = true := by
      intro hd
      unfold getMedia at hd
      have h2 := List.mem_of_mem_drop (List.mem_of_mem_take hd)
      have h3 := List.of_mem_filter h2
      simp only [decide_eq_true_eq] at h3
      exact h3.2
    exact absurd (h1 hmem) (by simp [h r hr hid])

/-- C2 witness: the inactive fixture record is NotFound by id and absent
from a default-filter listing. -/
theorem soft_deleted_record_invisible_witness :
    getMediaById [recI] "idI" = .error .notFound
    ∧ recI ∉ (getMedia [recI] {}).data :=
  have h := soft_deleted_record_invisible [recI] "idI" (by decide)
  ⟨h.1, h.2 {} recI (by decide) rfl (by decide)⟩

/-- C6: the storage path is the deterministic concatenation
`entityType/entityId/fieldName/fileName`; the generated file name is
`timestamp-uuid` followed by the original name's extension, so it depends on
the original upload name only through that extension; and two distinct
generated file names under one placement give distinct storage paths. -/
theorem storage_path_shape_and_injective
    (et ei fn ts uid n₁ n₂ f₁ f₂ : String) :
    generateStoragePath et ei fn f₁ = et ++ "/" ++ ei ++ "/" ++ fn ++ "/" ++ f₁
    ∧ generateFileName ts uid n₁ = ts ++ "-" ++ uid ++ getFileExtension n₁
    ∧ (getFileExtension n₁ = getFileExtension n₂ →
        generateFileName ts uid n₁ = generateFileName ts uid n₂)
    ∧ (f₁ ≠ f₂ →
        generateStoragePath et ei fn f₁ ≠ generateStoragePath et ei fn f₂) := by
  refine ⟨rfl, rfl, ?_, ?_⟩
  · intro h
    unfold generateFileName
    rw [h]
  · intro hne heq
    unfold generateStoragePath at heq
    exact hne (append_left_cancel_str heq)

/-- C6 witness: two original names sharing an extension generate the same
file name; two distinct file names give distinct paths. -/
theorem storage_path_shape_and_injective_witness :
    generateFileName "100" "uid1" "a.JPG" = generateFileName "100" "uid1" "b.jpg"
    ∧ generateStoragePath "user" "e1" "photos" "x"
        ≠ generateStoragePath "user" "e1" "photos" "y" :=
  ⟨(storage_path_shape_and_injective "user" "e1" "photos" "100" "uid1"
      "a.JPG" "b.jpg" "x" "y").2.2.1 (by decide),
   (storage_path_shape_and_injective "user" "e1" "photos" "100" "uid1"
      "a.JPG" "b.jpg" "x" "y").2.2.2 (by decide)⟩

/-- C7: the local-disk backend's signed URL ignores the requested TTL and is
always the stable direct URL `baseUrl/key`. -/
theorem local_signed_url_ttl_independent (key : String) (t₁ t₂ : Nat) :
    localGetSignedUrl key t₁ = localGetSignedUrl key t₂
    ∧ localGetSignedUrl key t₁ = localBaseUrl ++ "/" ++ key :=
  ⟨rfl, rfl⟩

/-- C9: a soft-deleted record is treated as missing by the soft-delete paths:
`deleteMedia` fails NotFound and `bulkDelete` reports the id in `failed`,
because both lookups go through the implicit `isActive: true` filter. -/
theorem inactive_treated_as_missing (store : Store) (id : String)
    (h : ∀ r ∈ store, r.id = id → r.isActive = false) :
    deleteMedia store id = .error .notFound
    ∧ ∀ ids : List String, id ∈ ids → id ∈ (bulkDelete store ids).2.failed := by
  have hnone : store.find? (fun r => decide (r.id = id) && r.isActive) = none := by
    apply List.find?_eq_none.mpr
    intro r hr
    simp only [Bool.and_eq_true, decide_eq_true_eq, not_and]
    intro hid ha
    exact absurd (h r hr hid) (by simp [ha])
  constructor
  · simp [deleteMedia, findByIdHooked, hnone]
  · intro ids hin
    unfold bulkDelete
    simp only [List.mem_filter, decide_eq_true_eq]
    refine ⟨hin, ?_⟩
    intro hcon
    rcases List.mem_map.mp hcon with ⟨m, hm, hmid⟩
    have h2 := List.of_mem_filter hm
    simp only [decide_eq_true_eq] at h2
    exact absurd (h m (List.mem_of_mem_filter hm) hmid) (by simp [h2.2])

/-- Membership of the ids of the hook-filtered `$in` lookup. -/
theorem mem_found_ids_iff (store : Store) (ids : List String) (i : String) :
    i ∈ (findInHooked store ids).map (fun m => m.id)
      ↔ i ∈ ids ∧ ∃ r ∈ store, r.id = i ∧ r.isActive = true := by
  unfold findInHooked
  constructor
  · intro h
    rcases List.mem_map.mp h with ⟨r, hr, rfl⟩
    have h2 := List.of_mem_filter hr
    simp only [Bool.and_eq_true, decide_eq_true_eq] at h2
    exact ⟨h2.1, r, List.mem_of_mem_filter hr, rfl, h2.2⟩
  · rintro ⟨hin, r, hr, rfl, ha⟩
    exact List.mem_map.mpr ⟨r, List.mem_filter.mpr ⟨hr, by simp [hin, ha]⟩, rfl⟩

theorem found_ids_nodup (store : Store) (ids : List String)
    (hstore : (store.map (fun m => m.id)).Nodup) :
    ((findInHooked store ids).map (fun m => m.id)).Nodup :=
  List.Nodup.sublist (List.Sublist.map _ (List.filter_sublist _)) hstore

/-- C5: bulk soft delete never raises for unknown ids: `failed` is exactly
the ids with no active record, `deleted` counts the rest of the ids, every
found (active, targeted) record is flagged inactive in the new store, and
records whose id was not targeted are untouched. -/
theorem bulk_soft_delete_split (store : Store) (ids : List String)
    (hids : ids.Nodup) (hstore : (store.map (fun m => m.id)).Nodup) :
    (bulkDelete store ids).2.failed
        = ids.filter (fun i => ¬ ∃ r ∈ store, r.id = i ∧ r.isActive = true)
    ∧ (bulkDelete store ids).2.deleted + (bulkDelete store ids).2.failed.length
        = ids.length
    ∧ (∀ r ∈ store, r.isActive = true → r.id ∈ ids →
        { r with isActive := false } ∈ (bulkDelete store ids).1)
    ∧ (∀ r ∈ store, r.id ∉ ids → r ∈ (bulkDelete store ids).1) := by
  have hmem := mem_found_ids_iff store ids
  refine ⟨?_, ?_, ?_, ?_⟩
  · show ids.filter _ = ids.filter _
    apply List.filter_congr
    intro i hin
    simp only [decide_eq_true_eq, hmem i, hin, true_and]
  · show ((findInHooked store ids).map (fun m => m.id)).length + (ids.filter _).length = _
    have hperm : ((findInHooked store ids).map (fun m => m.id)).Perm
        (ids.filter (fun i => i ∈ (findInHooked store ids).map (fun m => m.id))) := by
      apply (List.perm_ext_iff_of_nodup (found_ids_nodup store ids hstore)
        (hids.filter _)).mpr
      intro a
      simp only [List.mem_filter, decide_eq_true_eq]
      exact ⟨fun h => ⟨((hmem a).mp h).1, h⟩, fun h => h.2⟩
    rw [hperm.length_eq]
    have hsplit := List.length_eq_length_filter_add
      (l := ids) (fun i => decide (i ∈ (findInHooked store ids).map (fun m => m.id)))
    rw [hsplit]
    simp only [decide_not]
  · intro r hr ha hid
    have hrf : r ∈ findInHooked store ids :=
      List.mem_filter.mpr ⟨hr, by simp [hid, ha]⟩
    have hlen : ((findInHooked store ids).map (fun m => m.id)).length > 0 := by
      have : r.id ∈ (findInHooked store ids).map (fun m => m.id) :=
        List.mem_map.mpr ⟨r, hrf, rfl⟩
      exact List.length_pos.mpr (List.ne_nil_of_mem this)
    show { r with isActive := false } ∈ (if _ > 0 then _ else store)
    rw [if_pos hlen]
    unfold setInactiveByIds
    have hidf : r.id ∈ (findInHooked store ids).map (fun m => m.id) :=
      List.mem_map.mpr ⟨r, hrf, rfl⟩
    have := List.mem_map_of_mem
      (fun x => if x.id ∈ (findInHooked store ids).map (fun m => m.id)
        then { x with isActive := false } else x) hr
    simpa [hidf] using this
  · intro r hr hid
    have hnotf : ¬ r.id ∈ (findInHooked store ids).map (fun m => m.id) := by
      intro hcon
      exact hid ((hmem r.id).mp hcon).1
    show r ∈ (if _ > 0 then _ else store)
    by_cases hlen : ((findInHooked store ids).map (fun m => m.id)).length > 0
    · rw [if_pos hlen]
      unfold setInactiveByIds
      have := List.mem_map_of_mem
        (fun x => if x.id ∈ (findInHooked store ids).map (fun m => m.id)
          then { x with isActive := false } else x) hr
      simpa [hnotf] using this
    · rw [if_neg hlen]
      exact hr

/-- C5 witness: one active record, one inactive record, one unknown id. -/
theorem bulk_soft_delete_split_witness :
    (bulkDelete [recA, recI] ["idA", "idI", "idX"]).2.deleted
        + (bulkDelete [recA, recI] ["idA", "idI", "idX"]).2.failed.length = 3
    ∧ { recA with isActive := false }
        ∈ (bulkDelete [recA, recI] ["idA", "idI", "idX"]).1 :=
  have h := bulk_soft_delete_split [recA, recI] ["idA", "idI", "idX"]
    (by decide) (by decide)
  ⟨h.2.1, h.2.2.1 recA (by simp) rfl (by decide)⟩

/-- C4: within one upload the backend writes strictly precede the record
creation: on success the trace is either thumbnail write, primary write,
creation (image) or primary write, creation (non-image), the new record is
appended to the store and its storage path resolves in the backend; on any
failure (validation, type derivation, image processing, or a backend write)
no record is created and no creation event ever appears. -/
theorem upload_writes_before_record (env : UploadEnv) (store : Store)
    (bk : Backend) (file : UploadFile) (opts : UploadOptions) :
    ((∃ e, (uploadMedia env store bk file opts).result = .error e) →
        (uploadMedia env store bk file opts).store = store
        ∧ ∀ i, Ev.created i ∉ (uploadMedia env store bk file opts).trace)
    ∧ (∀ m, (uploadMedia env store bk file opts).result = .ok m →
        ((uploadMedia env store bk file opts).trace
            = [.upload (thumbRewrite m.storagePath), .upload m.storagePath,
                .created m.id]
          ∨ (uploadMedia env store bk file opts).trace
            = [.upload m.storagePath, .created m.id])
        ∧ (uploadMedia env store bk file opts).store = store ++ [m]
        ∧ bkGet (uploadMedia env store bk file opts).backend m.storagePath
            ≠ none) := by
  cases hv : validateFile file with
  | some r => simp [uploadMedia, hv]
  | none =>
  cases hm : getMediaTypeFromMime file.mimetype with
  | none => simp [uploadMedia, hv, hm]
  | some ty =>
  by_cases hty : ty = MediaType.image
  · subst hty
    cases hp : env.processImage file.buffer with
    | none => simp [uploadMedia, hv, hm, hp]
    | some processed =>
    cases hct : env.createThumbnail file.buffer with
    | none => simp [uploadMedia, hv, hm, hp, hct]
    | some tb =>
    by_cases hup1 : env.uploadOk (thumbRewrite (generateStoragePath
        opts.entityType opts.entityId opts.fieldName
        (generateFileName env.timestamp env.uuid file.originalname)))
    · by_cases hup2 : env.uploadOk (generateStoragePath
          opts.entityType opts.entityId opts.fieldName
          (generateFileName env.timestamp env.uuid file.originalname))
      · simp [uploadMedia, hv, hm, hp, hct, uploadTail, providerUpload,
          hup1, hup2, bkGet_bkSet_same]
      · simp [uploadMedia, hv, hm, hp, hct, uploadTail, providerUpload,
          hup1, hup2]
    · simp [uploadMedia, hv, hm, hp, hct, uploadTail, providerUpload, hup1]
  · by_cases hup2 : env.uploadOk (generateStoragePath
        opts.entityType opts.entityId opts.fieldName
        (generateFileName env.timestamp env.uuid file.originalname))
    · simp [uploadMedia, hv, hm, hty, uploadTail, providerUpload, hup2,
        bkGet_bkSet_same]
    · simp [uploadMedia, hv, hm, hty, uploadTail, providerUpload, hup2]

/-- C4 witness: a rejected upload (disallowed MIME type) creates no record
and emits no creation event. -/
theorem upload_writes_before_record_witness :
    (uploadMedia demoEnv [] [] badFile demoOpts).store = ([] : Store)
    ∧ Ev.created "newid" ∉ (uploadMedia demoEnv [] [] badFile demoOpts).trace :=
  have h := (upload_writes_before_record demoEnv [] [] badFile demoOpts).1
    ⟨.badRequest .unsupportedType, rfl⟩
  ⟨h.1, h.2 "newid"⟩

/-- C3: every validated upload that succeeds yields, for an image-typed MIME,
a processed record with a nonempty thumbnail URL and strictly positive stored
dimensions (the transformer contract `hprobe` — §4.2 of the spec — says
probing a successfully normalized image reports its actual, positive,
dimensions); and for a video/document MIME an unprocessed record with the
zeroed empty thumbnail, whose storage key holds the original buffer
unchanged. -/
theorem upload_processing_by_type (env : UploadEnv) (store : Store)
    (bk : Backend) (file : UploadFile) (opts : UploadOptions) (m : MediaRecord)
    (hprobe : ∀ b b', env.processImage b = some b' →
        0 < (env.probe b').1.getD 0 ∧ 0 < (env.probe b').2.getD 0)
    (hok : (uploadMedia env store bk file opts).result = .ok m) :
    (getMediaTypeFromMime file.mimetype = some .image →
        m.isProcessed = true ∧ m.thumbnail.url ≠ ""
        ∧ ∃ d, m.metadata.dimensions = some d ∧ 0 < d.width ∧ 0 < d.height)
    ∧ (∀ ty, getMediaTypeFromMime file.mimetype = some ty →
        ty ≠ MediaType.image →
        m.isProcessed = false ∧ m.thumbnail = ⟨"", 0, 0⟩
        ∧ bkGet (uploadMedia env store bk file opts).backend m.storagePath
            = some file.buffer) := by
  cases hv : validateFile file with
  | some r => simp [uploadMedia, hv] at hok
  | none =>
  cases hm : getMediaTypeFromMime file.mimetype with
  | none => simp [uploadMedia, hv, hm] at hok
  | some ty =>
  by_cases hty : ty = MediaType.image
  · subst hty
    cases hp : env.processImage file.buffer with
    | none => simp [uploadMedia, hv, hm, hp] at hok
    | some processed =>
    cases hct : env.createThumbnail file.buffer with
    | none => simp [uploadMedia, hv, hm, hp, hct] at hok
    | some tb =>
    by_cases hup1 : env.uploadOk (thumbRewrite (generateStoragePath
        opts.entityType opts.entityId opts.fieldName
        (generateFileName env.timestamp env.uuid file.originalname)))
    · by_cases hup2 : env.uploadOk (generateStoragePath
          opts.entityType opts.entityId opts.fieldName
          (generateFileName env.timestamp env.uuid file.originalname))
      · have hwh := hprobe file.buffer processed hp
        simp [uploadMedia, hv, hm, hp, hct, uploadTail, providerUpload,
          hup1, hup2] at hok
        constructor
        · intro _
          subst hok
          refine ⟨rfl, localUrl_ne_empty _, ?_⟩
          simp [getImageMetadata, Nat.pos_iff_ne_zero.mp hwh.1,
            Nat.pos_iff_ne_zero.mp hwh.2]
          exact ⟨hwh.1, hwh.2⟩
        · intro ty2 hty2 hne
          exact absurd (Option.some.inj hty2).symm hne
      · simp [uploadMedia, hv, hm, hp, hct, uploadTail, providerUpload,
          hup1, hup2] at hok
    · simp [uploadMedia, hv, hm, hp, hct, uploadTail, providerUpload,
        hup1] at hok
  · by_cases hup2 : env.uploadOk (generateStoragePath
        opts.entityType opts.entityId opts.fieldName
        (generateFileName env.timestamp env.uuid file.originalname))
    · simp [uploadMedia, hv, hm, hty, uploadTail, providerUpload, hup2] at hok
      constructor
      · intro hcon
        exact absurd (Option.some.inj hcon) hty
      · intro ty2 _ _
        subst hok
        refine ⟨rfl, rfl, ?_⟩
        simp [uploadMedia, hv, hm, hty, uploadTail, providerUpload, hup2]
        exact bkGet_bkSet_same _ _ _
    · simp [uploadMedia, hv, hm, hty, uploadTail, providerUpload, hup2] at hok

/-- C3 witness: a concrete successful image upload is processed, has a
nonempty thumbnail URL, and carries the probed 800×600 dimensions. -/
theorem upload_processing_by_type_witness :
    (uploadMedia demoEnv [] [] imgFile demoOpts).result = .ok uploadedImgRec
    ∧ uploadedImgRec.isProcessed = true
    ∧ uploadedImgRec.thumbnail.url ≠ ""
    ∧ uploadedImgRec.metadata.dimensions = some ⟨800, 600⟩ :=
  have h := (upload_processing_by_type demoEnv [] [] imgFile demoOpts
      uploadedImgRec (fun b b' hbb => by constructor <;> simp [demoEnv]) rfl).1 rfl
  ⟨rfl, h.1, h.2.1, by decide⟩

/-- C8: bulk hard delete hands the backend batch delete exactly the found
records' storage paths, deriving no thumbnail key, so a thumbnail object
whose key is not itself some record's storage path survives; single
`deleteMediaPermanently`, by contrast, also deletes the derived thumbnail
key of a (visible) record with a thumbnail URL. -/
theorem bulk_hard_delete_skips_thumbnails (store : Store) (bk : Backend)
    (ids : List String) (hne : findInHooked store ids ≠ []) :
    (bulkDeletePermanently store bk ids).2.2.2
        = (findInHooked store ids).map (fun m => m.storagePath)
    ∧ (∀ r ∈ findInHooked store ids,
        thumbRewrite r.storagePath
            ∉ (findInHooked store ids).map (fun m => m.storagePath) →
        bkGet (bulkDeletePermanently store bk ids).2.1
            (thumbRewrite r.storagePath)
          = bkGet bk (thumbRewrite r.storagePath))
    ∧ (∀ id r, findByIdHooked store id = some r → r.thumbnail.url ≠ "" →
        deleteMediaPermanently store bk id
          = .ok (removeById store id,
              bkDel (bkDel bk r.storagePath) (thumbRewrite r.storagePath),
              [r.storagePath, thumbRewrite r.storagePath])) := by
  have hlen : ((findInHooked store ids).map (fun m => m.storagePath)).length > 0 := by
    simpa [List.length_pos] using hne
  refine ⟨?_, ?_, ?_⟩
  · unfold bulkDeletePermanently
    rw [if_pos hlen]
  · intro r hr hnot
    unfold bulkDeletePermanently
    rw [if_pos hlen]
    exact bkGet_delMany_of_not_mem bk _ _ hnot
  · intro id r hfind hurl
    unfold deleteMediaPermanently
    rw [hfind]
    simp [hurl]

/-- C8 witness: one found image record; its thumbnail key is not among the
batch-deleted paths, and the thumbnail object survives bulk hard delete,
while the single hard delete removes both keys. -/
theorem bulk_hard_delete_skips_thumbnails_witness :
    (bulkDeletePermanently [recA] demoBackend ["idA"]).2.2.2
        = ["user/e1/photos/1-u.jpg"]
    ∧ bkGet (bulkDeletePermanently [recA] demoBackend ["idA"]).2.1
        "user/e1/photos/1-u-thumb.webp" = some [3]
    ∧ deleteMediaPermanently [recA] demoBackend "idA"
        = .ok (removeById [recA] "idA",
            bkDel (bkDel demoBackend recA.storagePath)
              (thumbRewrite recA.storagePath),
            [recA.storagePath, thumbRewrite recA.storagePath]) :=
  have h := bulk_hard_delete_skips_thumbnails [recA] demoBackend ["idA"]
    (by decide)
  ⟨by rw [h.1]; decide,
   by rw [show ("user/e1/photos/1-u-thumb.webp" : String)
        = thumbRewrite recA.storagePath by decide,
      h.2.1 recA (by decide) (by decide)]; decide,
   h.2.2 "idA" recA (by decide) (by decide)⟩

/-- C9 witness: soft delete of the already-inactive fixture fails NotFound,
and bulk delete reports its id as failed. -/
theorem inactive_treated_as_missing_witness :
    deleteMedia [recI] "idI" = .error .notFound
    ∧ "idI" ∈ (bulkDelete [recI] ["idI", "idX"]).2.failed :=
  have h := inactive_treated_as_missing [recI] "idI" (by decide)
  ⟨h.1, h.2 ["idI", "idX"] (by decide)⟩

/-- C10 counterexample: the claim quantifies over every image upload whose
original file name has no dot, but the trailing-extension regex is not
segment-aware: with `entityId = "a.b"` it matches the dot inside the entity
id (everything after it is dot-free), so the rewrite does NOT match nothing
and the thumbnail is uploaded under the mangled key `user/a-thumb.webp`,
different from the primary key — refuting the claimed "uploaded under the
exact same key". -/
theorem thumb_same_key_counterexample :
    getFileExtension noDotFile.originalname = ""
    ∧ thumbRewrite (generateStoragePath "user" "a.b" "f"
        (generateFileName "100" "uid1" "photo"))
      = "user/a-thumb.webp"
    ∧ "user/a-thumb.webp"
      ≠ generateStoragePath "user" "a.b" "f"
          (generateFileName "100" "uid1" "photo")
    ∧ Ev.upload "user/a-thumb.webp"
        ∈ (uploadMedia demoEnv [] [] noDotFile dotOpts).trace := by
  decide

/-- C10 amended: when additionally no placement component and no generated
component contains a dot (so the whole storage path is dot-free — the
timestamp and uuid of the real generators never contain dots), the claim
holds: the extension is empty, the rewrite matches nothing, the thumbnail is
uploaded under the primary key and then overwritten by the primary upload,
and the stored record's thumbnail URL equals its primary URL. -/
theorem thumb_same_key_when_path_dot_free (env : UploadEnv) (store : Store)
    (bk : Backend) (file : UploadFile) (opts : UploadOptions) (m : MediaRecord)
    (hname : ∀ c ∈ file.originalname.data, c ≠ '.')
    (het : ∀ c ∈ opts.entityType.data, c ≠ '.')
    (hei : ∀ c ∈ opts.entityId.data, c ≠ '.')
    (hfn : ∀ c ∈ opts.fieldName.data, c ≠ '.')
    (hts : ∀ c ∈ env.timestamp.data, c ≠ '.')
    (huid : ∀ c ∈ env.uuid.data, c ≠ '.')
    (himg : getMediaTypeFromMime file.mimetype = some .image)
    (hok : (uploadMedia env store bk file opts).result = .ok m) :
    getFileExtension file.originalname = ""
    ∧ thumbRewrite m.storagePath = m.storagePath
    ∧ m.thumbnail.url = m.url
    ∧ ∃ pb, env.processImage file.buffer = some pb
        ∧ bkGet (uploadMedia env store bk file opts).backend m.storagePath
            = some pb := by
  have hext : getFileExtension file.originalname = "" :=
    getFileExtension_of_no_dot _ hname
  have hdash : ∀ c ∈ ("-" : String).data, c ≠ '.' := by decide
  have hsl : ∀ c ∈ ("/" : String).data, c ≠ '.' := by decide
  have hempty : ∀ c ∈ ("" : String).data, c ≠ '.' := by decide
  have hfile : ∀ c ∈ (generateFileName env.timestamp env.uuid
      file.originalname).data, c ≠ '.' := by
    unfold generateFileName
    rw [hext]
    exact no_dot_append (no_dot_append (no_dot_append hts hdash) huid) hempty
  have hsp : ∀ c ∈ (generateStoragePath opts.entityType opts.entityId
      opts.fieldName
      (generateFileName env.timestamp env.uuid file.originalname)).data,
      c ≠ '.' := by
    unfold generateStoragePath
    exact no_dot_append (no_dot_append (no_dot_append (no_dot_append
      (no_dot_append (no_dot_append het hsl) hei) hsl) hfn) hsl) hfile
  have hrw : thumbRewrite (generateStoragePath opts.entityType opts.entityId
      opts.fieldName
      (generateFileName env.timestamp env.uuid file.originalname))
      = generateStoragePath opts.entityType opts.entityId opts.fieldName
        (generateFileName env.timestamp env.uuid file.originalname) :=
    thumbRewrite_of_no_dot _ hsp
  cases hv : validateFile file with
  | some r => simp [uploadMedia, hv] at hok
  | none =>
  cases hp : env.processImage file.buffer with
  | none => simp [uploadMedia, hv, himg, hp] at hok
  | some processed =>
  cases hct : env.createThumbnail file.buffer with
  | none => simp [uploadMedia, hv, himg, hp, hct] at hok
  | some tb =>
  by_cases hup1 : env.uploadOk (thumbRewrite (generateStoragePath
      opts.entityType opts.entityId opts.fieldName
      (generateFileName env.timestamp env.uuid file.originalname)))
  · by_cases hup2 : env.uploadOk (generateStoragePath
        opts.entityType opts.entityId opts.fieldName
        (generateFileName env.timestamp env.uuid file.originalname))
    · simp [uploadMedia, hv, himg, hp, hct, uploadTail, providerUpload,
        hup1, hup2] at hok
      subst hok
      refine ⟨hext, ?_, ?_, processed, rfl, ?_⟩
      · exact hrw
      · exact congrArg localUrl hrw
      · simp [uploadMedia, hv, himg, hp, hct, uploadTail, providerUpload,
          hup1, hup2]
        rw [hrw]
        exact bkGet_bkSet_same _ _ _
    · simp [uploadMedia, hv, himg, hp, hct, uploadTail, providerUpload,
        hup1, hup2] at hok
  · simp [uploadMedia, hv, himg, hp, hct, uploadTail, providerUpload,
      hup1] at hok

/-- C10 amended witness: uploading the dot-free `noDotFile` to the dot-free
placement stores the thumbnail and the primary under one key, the primary
content (the processed buffer) winning. -/
theorem thumb_same_key_when_path_dot_free_witness :
    getFileExtension noDotFile.originalname = ""
    ∧ thumbRewrite noDotUploadedRec.storagePath = noDotUploadedRec.storagePath
    ∧ noDotUploadedRec.thumbnail.url = noDotUploadedRec.url
    ∧ bkGet (uploadMedia demoEnv [] [] noDotFile demoOpts).backend
        noDotUploadedRec.storagePath = some [1, 2, 3] := by
  have h := thumb_same_key_when_path_dot_free demoEnv [] [] noDotFile demoOpts
    noDotUploadedRec (by decide) (by decide) (by decide) (by decide)
    (by decide) (by decide) rfl rfl
  refine ⟨h.1, h.2.1, h.2.2.1, ?_⟩
  rcases h.2.2.2 with ⟨pb, hpb, hbk⟩
  have : pb = [1, 2, 3] := by
    simpa [demoEnv] using hpb.symm
  rw [this] at hbk
  exact hbk

end MediaSvc
